import Mathlib

/-!
Verification of the srmilter milter-protocol server against its
specification. The Rust sources (`src/daemon.rs`, `src/milter.rs`,
`src/reader_extention.rs`, `src/lib.rs`) are shallowly embedded below:
bytes are `Nat` values (< 256 on real inputs), Rust `String`s are modelled
by their byte sequences (the lossy UTF-8 decode is the identity on the
ASCII data all claims use), `HashMap<String,String>` is modelled as an
association list with replace-on-insert, and the per-connection loop of
`process_client` becomes a step function over an explicit connection
state. `usize` arithmetic notes: `truncate - message_bytes.len()` in the
`B` handler underflows when the buffer already exceeds `truncate`; in a
debug build this panics ("attempt to subtract with overflow"), in a
release build it wraps.  The model makes the underflow explicit as a
`panic` outcome.
-/

namespace Srmilter

/-- Milter protocol constants from `src/milter.rs` (`pub mod constants`). -/
def SMFIF_VERSION : Nat := 6
def SMFIF_QUARANTINE : Nat := 0x20
def SMFIP_NOCONNECT : Nat := 0x1
def SMFIP_NOHELO : Nat := 0x2
def SMFIP_NOBODY : Nat := 0x10
def SMFIP_NR_HDR : Nat := 0x80
def SMFIP_NOUNKNOWN : Nat := 0x100
def SMFIP_NODATA : Nat := 0x200
def SMFIP_SKIP : Nat := 0x400
def SMFIP_NR_CONN : Nat := 0x1000
def SMFIP_NR_MAIL : Nat := 0x4000
def SMFIP_NR_RCPT : Nat := 0x8000
def SMFIP_NR_EOH : Nat := 0x40000
def SMFIP_NR_BODY : Nat := 0x80000

/-- Rust `usize::MAX` on the 64-bit targets the daemon runs on. -/
def USIZE_MAX : Nat := 2 ^ 64 - 1

/-- ASCII bytes of a string literal (all data the claims use is ASCII). -/
def asc (s : String) : List Nat := s.data.map Char.toNat

/-- Big-endian 4-byte encoding, as produced by `u32::to_be_bytes`. -/
def be32 (n : Nat) : List Nat :=
  [n / 2 ^ 24 % 256, n / 2 ^ 16 % 256, n / 2 ^ 8 % 256, n % 256]

/-- `BufRead::read_until(b'\0', …)`: consume bytes up to and including the
first NUL (or all remaining bytes at EOF); returns (bytes read, rest). -/
def readUntilNul : List Nat → List Nat × List Nat
  | [] => ([], [])
  | b :: t =>
    if b = 0 then ([0], t)
    else
      let p := readUntilNul t
      (b :: p.1, p.2)

/-- The slicing step of `read_zbytes` (`src/reader_extention.rs:41-45`):
`rposition(|&x| x != 0)` finds the last non-NUL byte; `Some pos` yields
`buffer[0..=pos]` (trailing NULs dropped), `None` (all bytes NUL, or the
buffer is empty) yields the whole buffer unchanged. -/
def zbytesStrip (buf : List Nat) : List Nat :=
  match buf.reverse.dropWhile (fun x => x == 0) with
  | [] => buf
  | l => l.reverse

/-- `read_zbytes` (`src/reader_extention.rs:38-46`) over a byte cursor:
returns the decoded slice and the unconsumed rest of the input. -/
def read_zbytes (input : List Nat) : List Nat × List Nat :=
  let p := readUntilNul input
  (zbytesStrip p.1, p.2)

/-- `anglestrip` (`src/reader_extention.rs:56-62`). -/
def anglestrip (s : List Nat) : List Nat :=
  if s.length > 1 ∧ s.headI = 60 ∧ s.getLastI = 62 then
    (s.drop 1).dropLast
  else s

/-- `HashMap<String,String>` modelled as an association list; lookup of
`HashMap::get`. -/
def mapLookup (k : List Nat) : List (List Nat × List Nat) → Option (List Nat)
  | [] => none
  | p :: t => if p.1 = k then some p.2 else mapLookup k t

/-- `HashMap::insert`: the key maps to the new value afterwards. -/
def mapInsert (m : List (List Nat × List Nat)) (k v : List Nat) :
    List (List Nat × List Nat) :=
  (k, v) :: m.filter (fun p => decide (p.1 ≠ k))

/-- The macro-definition loop of the `D` handler
(`src/daemon.rs:91-98`): read alternating NUL-terminated name/value
strings, stopping at an empty name; each pair is inserted into the
target macro map.  The loop is given `input.length` as fuel: an
iteration recurses only when the name read is nonempty, which consumes
at least one input byte, so the fuel never runs out before the input
does and the function computes exactly what the Rust loop computes. -/
def readMacroPairsFuel : Nat → List Nat → List (List Nat × List Nat) →
    List (List Nat × List Nat)
  | 0, _, acc => acc
  | fuel + 1, input, acc =>
    let p1 := read_zbytes input
    if p1.1 = [] then acc
    else
      let p2 := read_zbytes p1.2
      readMacroPairsFuel fuel p2.2 (mapInsert acc p1.1 p2.1)

/-- The `D`-handler loop applied with its full fuel. -/
def readMacroPairs (input : List Nat) (acc : List (List Nat × List Nat)) :
    List (List Nat × List Nat) :=
  readMacroPairsFuel input.length input acc

/-- `MailInfoStorage` (`src/lib.rs:17-23`); Rust strings appear as byte
lists. -/
structure MailInfoStorage where
  sender : List Nat
  recipients : List (List Nat)
  macros : List (List Nat × List Nat)
  id : List Nat
  mail_buffer : List Nat
deriving DecidableEq, Repr

/-- `MailInfoStorage::default()`: every field empty. -/
def defaultStorage : MailInfoStorage := ⟨[], [], [], [], []⟩

/-- `ClassifyResult` (`src/lib.rs`). -/
inductive ClassifyResult where
  | Accept
  | Reject
  | Quarantine
deriving DecidableEq, Repr

/-- Per-connection mutable state of `process_client`: the connect-scope
macro map and the envelope accumulator. -/
structure ConnState where
  connect_macros : List (List Nat × List Nat)
  storage : MailInfoStorage
deriving DecidableEq, Repr

/-- Fresh connection: both maps start empty (`src/daemon.rs:40-41`). -/
def initConn : ConnState := ⟨[], defaultStorage⟩

/-- One event on the write side of the socket: a complete milter frame
(length prefix included) or a `flush()` call. -/
inductive OutEvent where
  | frame (bytes : List Nat)
  | flush
deriving DecidableEq, Repr

/-- Wire encoding of a reply frame: `u32_be length || payload`
(`src/daemon.rs:81-82` and the analogous write sites). -/
def mkFrame (payload : List Nat) : List Nat :=
  be32 payload.length ++ payload

/-- Outcome of handling one inbound frame. `connErr` is an `Err(..)`
return from `process_client` (connection-fatal, server continues);
`panic` is a Rust panic (`todo!` for unknown commands, or the usize
underflow in the `B` handler in a debug build). -/
inductive Step where
  | ok (s : ConnState) (out : List OutEvent)
  | quit (out : List OutEvent)
  | connErr (msg : String)
  | panic (msg : String)
deriving DecidableEq, Repr

/-- The protocol word of the `O` reply (`src/daemon.rs:64-79`). -/
def protoWord (truncate : Nat) : Nat :=
  let base := SMFIP_NOCONNECT ||| SMFIP_NOHELO ||| SMFIP_NR_HDR |||
    SMFIP_NOUNKNOWN ||| SMFIP_NODATA ||| SMFIP_SKIP ||| SMFIP_NR_CONN |||
    SMFIP_NR_MAIL ||| SMFIP_NR_RCPT ||| SMFIP_NR_EOH
  let p1 := if truncate = 0 then base ||| SMFIP_NOBODY else base
  if truncate = USIZE_MAX then p1 ||| SMFIP_NR_BODY else p1

/-- Payload of the `O` reply: `O || version || actions || protocol`
(`src/daemon.rs:61-80`). -/
def oPayload (truncate : Nat) : List Nat :=
  79 :: (be32 SMFIF_VERSION ++ be32 SMFIF_QUARANTINE ++ be32 (protoWord truncate))

/-- Envelope state visible to `classify_mail` at `E`
(`src/daemon.rs:159-168`): connect-scope macros are inserted into the
envelope macro map (overwriting), then `id` is derived from macro `"i"`
with default `"-"`. -/
def storageAtE (s : ConnState) : MailInfoStorage :=
  let macros' := s.connect_macros.foldl (fun acc p => mapInsert acc p.1 p.2)
    s.storage.macros
  { s.storage with
    macros := macros'
    id := (mapLookup [105] macros').getD [45] }

/-- Reply frames for a verdict at `E` (`src/daemon.rs:170-197`):
Accept → `a`; Reject → `r`; Quarantine → `q` with NUL-terminated reason
`milter`, then `a`. -/
def verdictFrames : ClassifyResult → List OutEvent
  | .Accept => [.frame (mkFrame [97])]
  | .Reject => [.frame (mkFrame [114])]
  | .Quarantine =>
    [.frame (mkFrame [113, 109, 105, 108, 116, 101, 114, 0]),
     .frame (mkFrame [97])]

/-- Handler of the `O` frame (`src/daemon.rs:55-84`): the client's
advertised version/actions/protocol are ignored and the negotiation
reply is written and flushed. -/
def handleO (truncate : Nat) (s : ConnState) : Step :=
  .ok s [.frame (mkFrame (oPayload truncate)), .flush]

/-- Handler of the `D` frame (`src/daemon.rs:85-100`): the phase letter
selects the target map (`C` = connect scope, anything else = envelope
macros); then alternating name/value strings are inserted. An empty
payload makes the phase-letter read fail (connection error). -/
def handleD (s : ConnState) (rest : List Nat) : Step :=
  match rest with
  | [] => .connErr "short read"
  | forCmd :: body =>
    if forCmd = 67 then
      .ok { s with connect_macros := readMacroPairs body s.connect_macros } []
    else
      .ok { s with storage :=
        { s.storage with macros := readMacroPairs body s.storage.macros } } []

/-- Handler of the `M` frame (`src/daemon.rs:101-105`): replace the
sender with the angle-stripped first string; no reply. -/
def handleM (s : ConnState) (rest : List Nat) : Step :=
  .ok { s with storage :=
    { s.storage with sender := anglestrip (read_zbytes rest).1 } } []

/-- Handler of the `R` frame (`src/daemon.rs:106-111`): append one
angle-stripped recipient; no reply. -/
def handleR (s : ConnState) (rest : List Nat) : Step :=
  .ok { s with storage :=
    { s.storage with recipients :=
      s.storage.recipients ++ [anglestrip (read_zbytes rest).1] } } []

/-- Handler of the `L` (header) frame (`src/daemon.rs:112-122`): append
`name || ": " || value || CRLF` to the message buffer; no reply. -/
def handleL (s : ConnState) (rest : List Nat) : Step :=
  .ok { s with storage :=
    { s.storage with mail_buffer :=
      s.storage.mail_buffer ++ (read_zbytes rest).1 ++ [58, 32] ++
        (read_zbytes (read_zbytes rest).2).1 ++ [13, 10] } } []

/-- Handler of the `N` (end of headers) frame (`src/daemon.rs:123-126`):
append CRLF; no reply. -/
def handleN (s : ConnState) : Step :=
  .ok { s with storage :=
    { s.storage with mail_buffer := s.storage.mail_buffer ++ [13, 10] } } []

/-- Handler of the `B` (body chunk) frame (`src/daemon.rs:127-158`).
`buffer_space = truncate - mail_buffer.len()` is usize arithmetic: when
the buffer already exceeds `truncate` the subtraction underflows (panic
in a debug build, wrap-around in release — the model surfaces the
underflow as a panic).  Otherwise at most `buffer_space` bytes are
appended, and unless `truncate = usize::MAX` a `c` (continue) or `s`
(skip) reply is written and flushed depending on whether the updated
buffer is still below `truncate`. -/
def handleB (truncate : Nat) (s : ConnState) (rest : List Nat) : Step :=
  if s.storage.mail_buffer.length > truncate then
    .panic "attempt to subtract with overflow"
  else
    let space := truncate - s.storage.mail_buffer.length
    let buf2 :=
      if rest.length ≤ space then s.storage.mail_buffer ++ rest
      else s.storage.mail_buffer ++ rest.take space
    let s2 := { s with storage := { s.storage with mail_buffer := buf2 } }
    if truncate = USIZE_MAX then .ok s2 []
    else if buf2.length < truncate then
      .ok s2 [.frame (mkFrame [99]), .flush]
    else
      .ok s2 [.frame (mkFrame [115]), .flush]

/-- Handler of the `E` (end of message) frame (`src/daemon.rs:159-200`):
merge connect macros into the envelope, derive `id`, classify, write and
flush the verdict reply, then reset the envelope accumulator. -/
def handleE (cf : MailInfoStorage → ClassifyResult) (s : ConnState) : Step :=
  .ok { s with storage := defaultStorage }
    (verdictFrames (cf (storageAtE s)) ++ [.flush])

/-- Handler of the `A` (abort) frame (`src/daemon.rs:205-208`): reset
the envelope accumulator; no reply. -/
def handleA (s : ConnState) : Step :=
  .ok { s with storage := defaultStorage } []

/-- One iteration of the `process_client` loop (`src/daemon.rs:45-218`)
on a frame with the given payload (the wire length equals
`payload.length`). `truncate` is the body cap; `cf` abstracts
`classify_mail config` (the classifier dispatch). Oversize frames are a
connection error; a command byte outside the handled set hits
`todo!("unimplemented")` and panics. -/
def processFrame (truncate : Nat) (cf : MailInfoStorage → ClassifyResult)
    (s : ConnState) (payload : List Nat) : Step :=
  if payload.length > 69632 then .connErr "received line to long"
  else
    match payload with
    | [] => .connErr "short read"
    | 79 :: _ => handleO truncate s
    | 68 :: rest => handleD s rest
    | 77 :: rest => handleM s rest
    | 82 :: rest => handleR s rest
    | 76 :: rest => handleL s rest
    | 78 :: _ => handleN s
    | 66 :: rest => handleB truncate s rest
    | 69 :: _ => handleE cf s
    | 81 :: _ => .quit []
    | 65 :: _ => handleA s
    | _ => .panic "unimplemented"

/-- Result of running the loop over a list of inbound frames. -/
inductive RunOut where
  | running (s : ConnState) (out : List OutEvent)
  | finished (out : List OutEvent)
  | errored (msg : String) (out : List OutEvent)
  | panicked (msg : String) (out : List OutEvent)
deriving DecidableEq, Repr

/-- Prepend already-produced output events to a run result. -/
def prependOut (o : List OutEvent) : RunOut → RunOut
  | .running s o2 => .running s (o ++ o2)
  | .finished o2 => .finished (o ++ o2)
  | .errored m o2 => .errored m (o ++ o2)
  | .panicked m o2 => .panicked m (o ++ o2)

/-- The `process_client` loop over a whole frame sequence. -/
def run (truncate : Nat) (cf : MailInfoStorage → ClassifyResult)
    (s : ConnState) : List (List Nat) → RunOut
  | [] => .running s []
  | f :: fs =>
    match processFrame truncate cf s f with
    | .ok s' o => prependOut o (run truncate cf s' fs)
    | .quit o => .finished o
    | .connErr m => .errored m []
    | .panic m => .panicked m []

/-- The always-Accept classifier, used to instantiate `cf` in concrete
traces that never depend on the verdict. -/
def cfAccept : MailInfoStorage → ClassifyResult := fun _ => .Accept

/-- Frames whose handler touches only the envelope accumulator:
`M`, `R`, `L`, `N`, `B`, and `D` with a non-connect phase letter. -/
def isEnvelopeFrame (p : List Nat) : Bool :=
  match p with
  | [] => false
  | c :: rest =>
    if c = 77 ∨ c = 82 ∨ c = 76 ∨ c = 78 ∨ c = 66 then true
    else if c = 68 then
      match rest with
      | [] => false
      | fc :: _ => decide (fc ≠ 67)
    else false



/-- Connection state used to witness C7: one connect-scope macro and an
envelope holding a stale sender and two stale recipients. -/
def c7State : ConnState :=
  ⟨[([106], [109])],
   { defaultStorage with sender := [111], recipients := [[112], [113]] }⟩

/-- State of `c7State` after the envelope frame `M "a"`. -/
def c7StateAfterM : ConnState :=
  ⟨[([106], [109])],
   { defaultStorage with sender := [97], recipients := [[112], [113]] }⟩

/-- `classify_mail` (`src/lib.rs:398-419`).  The RFC 5322 parser
(`mail_parser::MessageParser`, an external library) is abstracted as the
`parse` parameter; the configured classifier (`config.full_mail_classifier`
resolved through `ClassifierStorage`) as the optional `classifier`.  The
second component collects the `eprintln!` log lines (as byte strings,
`"{id}: …"`). -/
def classify_mail {Msg : Type} (parse : List Nat → Option Msg)
    (classifier : Option (Msg → MailInfoStorage → ClassifyResult))
    (storage : MailInfoStorage) : ClassifyResult × List (List Nat) :=
  match classifier with
  | some cl =>
    match parse storage.mail_buffer with
    | some msg => (cl msg storage, [])
    | none =>
      (.Accept,
       [storage.id ++ asc ": ACCEPT (because of failure to parse message)"])
  | none =>
    (.Accept, [storage.id ++ asc ": ACCEPT (no classifier configured)"])


end Srmilter

namespace Srmilter

/-! ### Helper lemmas on the macro-map model -/

theorem mapLookup_eq_none_of_not_mem (k : List Nat)
    (m : List (List Nat × List Nat)) (h : k ∉ m.map Prod.fst) :
    mapLookup k m = none := by
  induction m with
  | nil => rfl
  | cons p t ih =>
    simp only [List.map_cons, List.mem_cons] at h
    push_neg at h
    simp only [mapLookup]
    rw [if_neg (fun hh => h.1 hh.symm)]
    exact ih h.2

theorem mapLookup_filter_ne (k k' : List Nat) (m : List (List Nat × List Nat))
    (h : k' ≠ k) :
    mapLookup k' (m.filter fun p => decide (p.1 ≠ k)) = mapLookup k' m := by
  induction m with
  | nil => rfl
  | cons p t ih =>
    obtain ⟨pk, pv⟩ := p
    by_cases hp : pk = k
    · rw [show (List.filter (fun p => decide (p.1 ≠ k)) ((pk, pv) :: t)) =
          List.filter (fun p => decide (p.1 ≠ k)) t by
        simp [List.filter, hp]]
      rw [ih]
      simp only [mapLookup]
      rw [if_neg (fun hh : pk = k' => h (hh.symm.trans hp))]
    · rw [show (List.filter (fun p => decide (p.1 ≠ k)) ((pk, pv) :: t)) =
          (pk, pv) :: List.filter (fun p => decide (p.1 ≠ k)) t by
        simp [List.filter, hp]]
      simp only [mapLookup]
      rw [ih]

theorem mapLookup_insert_self (m : List (List Nat × List Nat)) (k v : List Nat) :
    mapLookup k (mapInsert m k v) = some v := by
  simp [mapInsert, mapLookup]

theorem mapLookup_insert_ne (m : List (List Nat × List Nat)) (k v k' : List Nat)
    (h : k' ≠ k) :
    mapLookup k' (mapInsert m k v) = mapLookup k' m := by
  simp only [mapInsert, mapLookup]
  rw [if_neg (fun hh : k = k' => h hh.symm)]
  exact mapLookup_filter_ne k k' m h

/-- Merging connect-scope macros into the envelope map by repeated
insertion: keys present in the connect map take the connect value, all
other keys keep the envelope value. -/
theorem mergeE_lookup (cm : List (List Nat × List Nat))
    (em : List (List Nat × List Nat)) (k : List Nat)
    (hnd : (cm.map Prod.fst).Nodup) :
    mapLookup k (cm.foldl (fun acc p => mapInsert acc p.1 p.2) em) =
      match mapLookup k cm with
      | some v => some v
      | none => mapLookup k em := by
  induction cm generalizing em with
  | nil => rfl
  | cons p t ih =>
    obtain ⟨pk, pv⟩ := p
    simp only [List.map_cons, List.nodup_cons] at hnd
    simp only [List.foldl_cons]
    rw [ih _ hnd.2]
    by_cases hp : pk = k
    · subst hp
      rw [mapLookup_eq_none_of_not_mem pk t hnd.1,
        mapLookup_insert_self em pk pv]
      simp [mapLookup]
    · cases htk : mapLookup k t with
      | some v => simp [mapLookup, hp, htk]
      | none =>
        rw [mapLookup_insert_ne em pk pv k (fun hh => hp hh.symm)]
        simp [mapLookup, hp, htk]

/-! ### Characterisation of `read_until` / `read_zbytes` -/

theorem readUntilNul_eq (t : List Nat) :
    readUntilNul t =
      (t.takeWhile (fun b => b != 0) ++ (if t.any (fun b => b == 0) then [0] else []),
       t.drop ((t.takeWhile (fun b => b != 0)).length + 1)) := by
  induction t with
  | nil => rfl
  | cons b t ih =>
    by_cases hb : b = 0
    · subst hb
      simp [readUntilNul, List.takeWhile, List.any]
    · have hbne : (b != 0) = true := by simpa using hb
      have hbeq : (b == 0) = false := by simpa using hb
      simp only [readUntilNul, if_neg hb, ih]
      simp [List.takeWhile_cons, hbne, hbeq]

theorem dropWhile_zero_reverse (w : List Nat) (hw : ∀ b ∈ w, b ≠ 0) :
    w.reverse.dropWhile (fun x => x == 0) = w.reverse := by
  rw [List.dropWhile_eq_self_iff]
  intro hl hp
  have hmem : w.reverse.get ⟨0, hl⟩ ∈ w := by
    have hg := List.get_mem w.reverse 0 hl
    rw [List.mem_reverse] at hg
    exact hg
  exact hw _ hmem (by simpa using hp)

theorem zbytesStrip_no_zero (w : List Nat) (hw : ∀ b ∈ w, b ≠ 0) :
    zbytesStrip w = w := by
  unfold zbytesStrip
  rw [dropWhile_zero_reverse w hw]
  cases hrev : w.reverse with
  | nil => rfl
  | cons a l =>
    show (a :: l).reverse = w
    rw [← hrev, List.reverse_reverse]

theorem zbytesStrip_append_zero (w : List Nat) (hw : ∀ b ∈ w, b ≠ 0) :
    zbytesStrip (w ++ [0]) = if w = [] then [0] else w := by
  unfold zbytesStrip
  have h1 : (w ++ [0]).reverse = 0 :: w.reverse := by simp
  rw [h1]
  have h2 : (0 :: w.reverse).dropWhile (fun x => x == 0) =
      w.reverse.dropWhile (fun x => x == 0) := by
    simp [List.dropWhile]
  rw [h2, dropWhile_zero_reverse w hw]
  cases hrev : w.reverse with
  | nil =>
    have hwnil : w = [] := by simpa using congrArg List.reverse hrev
    simp [hwnil]
  | cons a l =>
    have hwne : w ≠ [] := by
      intro hcon
      rw [hcon] at hrev
      exact absurd hrev (by simp)
    rw [if_neg hwne]
    show (a :: l).reverse = w
    rw [← hrev, List.reverse_reverse]

/-! ### Run machinery -/

theorem prependOut_nil (r : RunOut) : prependOut [] r = r := by
  cases r <;> simp [prependOut]

theorem prependOut_prependOut (o1 o2 : List OutEvent) (r : RunOut) :
    prependOut o1 (prependOut o2 r) = prependOut (o1 ++ o2) r := by
  cases r <;> simp [prependOut]

theorem processFrame_O (t : Nat) (cf : MailInfoStorage → ClassifyResult)
    (s : ConnState) (p : List Nat) (h : p.length < 69632) :
    processFrame t cf s (79 :: p) = handleO t s := by
  unfold processFrame
  rw [if_neg (by simp only [List.length_cons]; omega)]

theorem processFrame_E (t : Nat) (cf : MailInfoStorage → ClassifyResult)
    (s : ConnState) (p : List Nat) (h : p.length < 69632) :
    processFrame t cf s (69 :: p) = handleE cf s := by
  unfold processFrame
  rw [if_neg (by simp only [List.length_cons]; omega)]

theorem processFrame_A (t : Nat) (cf : MailInfoStorage → ClassifyResult)
    (s : ConnState) (p : List Nat) (h : p.length < 69632) :
    processFrame t cf s (65 :: p) = handleA s := by
  unfold processFrame
  rw [if_neg (by simp only [List.length_cons]; omega)]

theorem processFrame_M (t : Nat) (cf : MailInfoStorage → ClassifyResult)
    (s : ConnState) (p : List Nat) (h : p.length < 69632) :
    processFrame t cf s (77 :: p) = handleM s p := by
  unfold processFrame
  rw [if_neg (by simp only [List.length_cons]; omega)]

theorem handleB_connect (t : Nat) (s s₂ : ConnState) (rest : List Nat)
    (out : List OutEvent) (hok : handleB t s rest = .ok s₂ out) :
    s₂.connect_macros = s.connect_macros := by
  simp only [handleB] at hok
  repeat' split at hok
  all_goals first
    | exact Step.noConfusion hok
    | (cases hok; rfl)

theorem handleD_connect (s s₂ : ConnState) (fc : Nat) (body : List Nat)
    (out : List OutEvent) (hfc : fc ≠ 67)
    (hok : handleD s (fc :: body) = .ok s₂ out) :
    s₂.connect_macros = s.connect_macros := by
  simp only [handleD] at hok
  rw [if_neg hfc] at hok
  cases hok; rfl

theorem isEnvelopeFrame_cases (c : Nat) (rest : List Nat)
    (hf : isEnvelopeFrame (c :: rest) = true) :
    c = 77 ∨ c = 82 ∨ c = 76 ∨ c = 78 ∨ c = 66 ∨
      (c = 68 ∧ ∃ fc body, rest = fc :: body ∧ fc ≠ 67) := by
  simp only [isEnvelopeFrame] at hf
  by_cases h5 : c = 77 ∨ c = 82 ∨ c = 76 ∨ c = 78 ∨ c = 66
  · tauto
  · rw [if_neg h5] at hf
    by_cases h68 : c = 68
    · subst h68
      rw [if_pos rfl] at hf
      cases rest with
      | nil => exact absurd hf (by simp)
      | cons fc body =>
        right; right; right; right; right
        exact ⟨rfl, fc, body, rfl, by simpa using hf⟩
    · rw [if_neg h68] at hf
      exact absurd hf (by simp)

theorem envFrame_preserves_connect (t : Nat)
    (cf : MailInfoStorage → ClassifyResult) (s s₂ : ConnState)
    (p : List Nat) (out : List OutEvent)
    (hf : isEnvelopeFrame p = true)
    (hok : processFrame t cf s p = .ok s₂ out) :
    s₂.connect_macros = s.connect_macros := by
  cases p with
  | nil => simp [isEnvelopeFrame] at hf
  | cons c rest =>
    unfold processFrame at hok
    split at hok
    · exact Step.noConfusion hok
    · rcases isEnvelopeFrame_cases c rest hf with h | h | h | h | h | ⟨h, fc, body, hrest, hfc⟩
      · subst h
        have hok2 : handleM s rest = .ok s₂ out := hok
        simp only [handleM] at hok2
        cases hok2; rfl
      · subst h
        have hok2 : handleR s rest = .ok s₂ out := hok
        simp only [handleR] at hok2
        cases hok2; rfl
      · subst h
        have hok2 : handleL s rest = .ok s₂ out := hok
        simp only [handleL] at hok2
        cases hok2; rfl
      · subst h
        have hok2 : handleN s = .ok s₂ out := hok
        simp only [handleN] at hok2
        cases hok2; rfl
      · subst h
        have hok2 : handleB t s rest = .ok s₂ out := hok
        exact handleB_connect t s s₂ rest out hok2
      · subst h; subst hrest
        have hok2 : handleD s (fc :: body) = .ok s₂ out := hok
        exact handleD_connect s s₂ fc body out hfc hok2

/-! ### Claim theorems -/

/-- C1: the spec's cap invariant (`message_bytes.len() ≤ K` at all B
frames, so `truncate - message_bytes.len()` never underflows) is
violated by the code: header (`L`) frames are appended to the message
buffer without any cap check, so with truncate = 8 a single header
`ABCDEF: GHIJKL` brings the buffer to 16 bytes, and the next `B` frame
evaluates `8 - 16` on usize — an arithmetic underflow (panic in a debug
build, wrap-around past the cap in release). -/
theorem c1_truncate_underflow_on_headers :
    processFrame 8 cfAccept initConn
        [76, 65, 66, 67, 68, 69, 70, 0, 71, 72, 73, 74, 75, 76, 0] =
      .ok ⟨[], { defaultStorage with
        mail_buffer := [65, 66, 67, 68, 69, 70, 58, 32,
          71, 72, 73, 74, 75, 76, 13, 10] }⟩ [] ∧
    ([65, 66, 67, 68, 69, 70, 58, 32,
      71, 72, 73, 74, 75, 76, 13, 10] : List Nat).length = 16 ∧
    ¬ (16 ≤ 8) ∧
    run 8 cfAccept initConn
        [[76, 65, 66, 67, 68, 69, 70, 0, 71, 72, 73, 74, 75, 76, 0], [66, 120]] =
      .panicked "attempt to subtract with overflow" [] := by
  refine ⟨by decide, by decide, by decide, by decide⟩

/-- C2 counterexample: with truncate = 8 and the buffer already at the
cap (8 bytes "AAAABBBB"), a third body chunk "CCCC" does get a reply —
a second `s` (SKIP) frame — whereas the claim says no reply is sent. -/
theorem c2_third_chunk_still_replied :
    processFrame 8 cfAccept
        ⟨[], { defaultStorage with
          mail_buffer := [65, 65, 65, 65, 66, 66, 66, 66] }⟩
        [66, 67, 67, 67, 67] =
      .ok ⟨[], { defaultStorage with
          mail_buffer := [65, 65, 65, 65, 66, 66, 66, 66] }⟩
        [.frame (mkFrame [115]), .flush] ∧
    ([OutEvent.frame (mkFrame [115]), OutEvent.flush] : List OutEvent) ≠ [] := by
  refine ⟨by decide, by decide⟩

/-- C2 amended: truncate = 8 with body chunks "AAAA", "BBBB", "CCCC"
gives `c` after the first chunk, `s` after the second, and another `s`
(not silence) after the third: every chunk processed while the buffer is
below the cap is answered `c` and every one at/after the cap is answered
`s`.  The accumulated body is exactly "AAAABBBB". -/
theorem c2_truncate8_trace :
    run 8 cfAccept initConn
        [[66, 65, 65, 65, 65], [66, 66, 66, 66, 66], [66, 67, 67, 67, 67]] =
      .running ⟨[], { defaultStorage with
          mail_buffer := [65, 65, 65, 65, 66, 66, 66, 66] }⟩
        [.frame (mkFrame [99]), .flush,
         .frame (mkFrame [115]), .flush,
         .frame (mkFrame [115]), .flush] := by
  decide

/-- C3: an unknown command byte (here `Z` after a completed `O`
negotiation) does not produce a connection-level error: the handler hits
`todo!("unimplemented")`, which panics.  In the model the run ends
`panicked`, a distinct outcome from `errored` (the outcome of oversize
frames or short reads, which are fatal to the connection only).  In the
default inline mode such a panic unwinds through `daemon()` and kills
the whole server process. -/
theorem c3_unknown_command_panics :
    processFrame 8 cfAccept initConn [90] = .panic "unimplemented" ∧
    run 8 cfAccept initConn [[79], [90]] =
      .panicked "unimplemented" [.frame (mkFrame (oPayload 8)), .flush] := by
  refine ⟨by decide, by decide⟩

/-- C4 counterexample: an `M` (MAIL FROM) frame sent as the very first
frame of a connection — before any `O` — is processed normally (the
sender is recorded, no rejection and no error), contradicting the claim
that all commands other than `O` are rejected while awaiting option
negotiation. -/
theorem c4_mail_before_option_processed :
    processFrame 8 cfAccept initConn [77, 60, 97, 64, 120, 62, 0] =
      .ok ⟨[], { defaultStorage with sender := [97, 64, 120] }⟩ [] ∧
    ([97, 64, 120] : List Nat) ≠ defaultStorage.sender := by
  refine ⟨by decide, by decide⟩

/-- C8 counterexample: a read consisting of a single NUL byte is
returned unchanged by `read_zbytes` — the result is `[0]`, not the
empty slice the claim asserts (`rposition` finds no non-NUL byte and
the `None` arm returns the whole buffer). -/
theorem c8_nul_only_read_not_stripped :
    (read_zbytes [0]).1 = [0] ∧ ([0] : List Nat) ≠ [] := by
  refine ⟨by decide, by decide⟩

/-- C4 amended: the per-connection loop keeps no awaiting-option state
at all — every known command is handled the same way whether or not an
`O` frame has been processed.  In particular an `M` frame arriving
first on a fresh connection is not rejected: it is processed and the
sender is set from its payload. -/
theorem c4_no_awaiting_option_state (t : Nat)
    (cf : MailInfoStorage → ClassifyResult) (rest : List Nat)
    (h : rest.length < 69632) :
    processFrame t cf initConn (77 :: rest) =
      .ok ⟨[], { defaultStorage with
        sender := anglestrip (read_zbytes rest).1 }⟩ [] := by
  rw [processFrame_M t cf initConn rest h]
  rfl

/-- Witness for C4: the amended statement evaluated on the concrete
pre-`O` frame `M "<a@x>"`. -/
theorem c4_no_awaiting_option_state_witness :
    processFrame 8 cfAccept initConn (77 :: [60, 97, 64, 120, 62, 0]) =
      .ok ⟨[], { defaultStorage with
        sender := anglestrip (read_zbytes [60, 97, 64, 120, 62, 0]).1 }⟩ [] :=
  c4_no_awaiting_option_state 8 cfAccept [60, 97, 64, 120, 62, 0] (by decide)

/-- C5 counterexample: with connect-scope macro `i = "CONN"` and
envelope macro `i = "ENV"`, the state visible to the classifier at `E`
derives `id = "CONN"` — the connect-scope value, not the envelope's —
because the merge loop inserts connect macros over the envelope map. -/
theorem c5_envelope_value_not_kept :
    (storageAtE ⟨[([105], [67, 79, 78, 78])],
        { defaultStorage with macros := [([105], [69, 78, 86])] }⟩).id =
      [67, 79, 78, 78] ∧
    ([67, 79, 78, 78] : List Nat) ≠ [69, 78, 86] := by
  refine ⟨by decide, by decide⟩

/-- C5 amended: at every `E`, connect-scope macros are merged into the
envelope map by insertion, overwriting: for any macro name set in the
connect scope (with its concrete value `v`), the merged map seen while
deriving `id` and invoking the classifier maps that name to `v` — the
connect value wins over any envelope value; and `id` is derived from
the merged map (macro `"i"`, default `"-"`). -/
theorem c5_connect_scope_overwrites (s : ConnState) (k v : List Nat)
    (hnd : (s.connect_macros.map Prod.fst).Nodup)
    (hk : mapLookup k s.connect_macros = some v) :
    mapLookup k (storageAtE s).macros = some v ∧
    (storageAtE s).id = (mapLookup [105] (storageAtE s).macros).getD [45] := by
  constructor
  · show mapLookup k (s.connect_macros.foldl
      (fun acc p => mapInsert acc p.1 p.2) s.storage.macros) = some v
    rw [mergeE_lookup s.connect_macros s.storage.macros k hnd, hk]
  · rfl

/-- Witness for C5: the amended statement evaluated at connect map
`{i ↦ CONN}` and envelope map `{i ↦ ENV}`. -/
theorem c5_connect_scope_overwrites_witness :
    mapLookup [105] (storageAtE ⟨[([105], [67, 79, 78, 78])],
        { defaultStorage with macros := [([105], [69, 78, 86])] }⟩).macros =
      some [67, 79, 78, 78] ∧
    (storageAtE ⟨[([105], [67, 79, 78, 78])],
        { defaultStorage with macros := [([105], [69, 78, 86])] }⟩).id =
      (mapLookup [105] (storageAtE ⟨[([105], [67, 79, 78, 78])],
        { defaultStorage with macros := [([105], [69, 78, 86])] }⟩).macros).getD
        [45] :=
  c5_connect_scope_overwrites
    ⟨[([105], [67, 79, 78, 78])],
      { defaultStorage with macros := [([105], [69, 78, 86])] }⟩
    [105] [67, 79, 78, 78] (by decide) (by decide)

/-- C8 amended: `read_zbytes` reads up to and including the first NUL;
if the bytes read contain a non-NUL byte the trailing NUL is stripped
(the result is exactly the prefix of the input before the first NUL),
but a read consisting only of NUL byte(s) is returned unchanged (`[0]`,
not the empty slice); only a read of zero bytes (EOF) yields the empty
slice when no data precedes it. -/
theorem c8_read_zbytes_characterised (l : List Nat) :
    (read_zbytes l).1 =
      (if l.takeWhile (fun b => b != 0) = [] ∧ l ≠ [] then [0]
       else l.takeWhile (fun b => b != 0)) ∧
    (read_zbytes l).2 =
      l.drop ((l.takeWhile (fun b => b != 0)).length + 1) := by
  have hw : ∀ b ∈ l.takeWhile (fun b => b != 0), b ≠ 0 := by
    intro b hb
    simpa using List.mem_takeWhile_imp hb
  constructor
  · show zbytesStrip (readUntilNul l).1 = _
    rw [readUntilNul_eq]
    by_cases hany : l.any (fun b => b == 0)
    · simp only [if_pos hany]
      rw [zbytesStrip_append_zero _ hw]
      have hlne : l ≠ [] := by
        rintro rfl
        simp at hany
      by_cases htw : l.takeWhile (fun b => b != 0) = []
      · rw [if_pos htw, if_pos ⟨htw, hlne⟩]
      · rw [if_neg htw, if_neg (fun hcon => htw hcon.1)]
    · simp only [if_neg hany, List.append_nil]
      rw [zbytesStrip_no_zero _ hw]
      rw [if_neg ?hc]
      case hc =>
        rintro ⟨h1, h2⟩
        cases l with
        | nil => exact h2 rfl
        | cons b tl =>
          by_cases hb : b = 0
          · subst hb
            exact hany (by simp)
          · have hbt : (b != 0) = true := by simpa using hb
            simp [List.takeWhile_cons, hbt] at h1
  · show (readUntilNul l).2 = _
    rw [readUntilNul_eq]

theorem protoWord_eq (t : Nat) :
    protoWord t =
      if t = 0 then 317331 else if t = USIZE_MAX then 841603 else 317315 := by
  simp only [protoWord]
  by_cases h0 : t = 0
  · subst h0
    simp only [if_pos rfl]
    decide
  · simp only [if_neg h0]
    by_cases hM : t = USIZE_MAX
    · subst hM
      simp only [if_pos rfl]
      decide
    · simp only [if_neg hM]
      decide

/-- C6: the reply to any `O` frame is the single frame
`O || u32_be 6 || u32_be 0x20 || u32_be protocol`, where the protocol
word always contains NOCONNECT, NOHELO, NR_HDR, NOUNKNOWN, NODATA,
SKIP, NR_CONN, NR_MAIL, NR_RCPT and NR_EOH, contains NOBODY exactly
when truncate = 0, and contains NR_BODY exactly when
truncate = usize::MAX (so neither extra flag when 0 < truncate < ∞). -/
theorem c6_option_negotiation_reply (t : Nat)
    (cf : MailInfoStorage → ClassifyResult) (s : ConnState) (p : List Nat)
    (h : p.length < 69632) :
    processFrame t cf s (79 :: p) =
      .ok s [.frame (mkFrame (oPayload t)), .flush] ∧
    oPayload t = 79 :: (be32 6 ++ be32 0x20 ++ be32 (protoWord t)) ∧
    (protoWord t &&& SMFIP_NOBODY ≠ 0 ↔ t = 0) ∧
    (protoWord t &&& SMFIP_NR_BODY ≠ 0 ↔ t = USIZE_MAX) ∧
    (∀ f ∈ [SMFIP_NOCONNECT, SMFIP_NOHELO, SMFIP_NR_HDR, SMFIP_NOUNKNOWN,
        SMFIP_NODATA, SMFIP_SKIP, SMFIP_NR_CONN, SMFIP_NR_MAIL,
        SMFIP_NR_RCPT, SMFIP_NR_EOH], protoWord t &&& f ≠ 0) := by
  refine ⟨?_, rfl, ?_, ?_, ?_⟩
  · rw [processFrame_O t cf s p h]
    rfl
  · rw [protoWord_eq]
    by_cases h0 : t = 0
    · simp only [if_pos h0]
      exact ⟨fun _ => h0, fun _ => by decide⟩
    · simp only [if_neg h0]
      by_cases hM : t = USIZE_MAX
      · simp only [if_pos hM]
        exact ⟨fun hcon => absurd (by decide : (841603 &&& SMFIP_NOBODY) = 0)
          hcon, fun ht => absurd ht h0⟩
      · simp only [if_neg hM]
        exact ⟨fun hcon => absurd (by decide : (317315 &&& SMFIP_NOBODY) = 0)
          hcon, fun ht => absurd ht h0⟩
  · rw [protoWord_eq]
    by_cases h0 : t = 0
    · simp only [if_pos h0]
      refine ⟨fun hcon => absurd (by decide : (317331 &&& SMFIP_NR_BODY) = 0)
        hcon, fun hM => ?_⟩
      rw [h0] at hM
      exact absurd hM.symm (by decide)
    · simp only [if_neg h0]
      by_cases hM : t = USIZE_MAX
      · simp only [if_pos hM]
        exact ⟨fun _ => hM, fun _ => by decide⟩
      · simp only [if_neg hM]
        exact ⟨fun hcon => absurd (by decide : (317315 &&& SMFIP_NR_BODY) = 0)
          hcon, fun ht => absurd ht hM⟩
  · rw [protoWord_eq]
    intro f hf
    by_cases h0 : t = 0
    · simp only [if_pos h0]
      fin_cases hf <;> decide
    · simp only [if_neg h0]
      by_cases hM : t = USIZE_MAX
      · simp only [if_pos hM]
        fin_cases hf <;> decide
      · simp only [if_neg hM]
        fin_cases hf <;> decide

/-- Witness for C6: the negotiation reply evaluated at truncate = 5
(finite, nonzero) on an `O` frame with empty extra payload. -/
theorem c6_option_negotiation_reply_witness :
    processFrame 5 cfAccept initConn (79 :: []) =
      .ok initConn [.frame (mkFrame (oPayload 5)), .flush] ∧
    oPayload 5 = 79 :: (be32 6 ++ be32 0x20 ++ be32 (protoWord 5)) ∧
    (protoWord 5 &&& SMFIP_NOBODY ≠ 0 ↔ 5 = 0) ∧
    (protoWord 5 &&& SMFIP_NR_BODY ≠ 0 ↔ 5 = USIZE_MAX) ∧
    (∀ f ∈ [SMFIP_NOCONNECT, SMFIP_NOHELO, SMFIP_NR_HDR, SMFIP_NOUNKNOWN,
        SMFIP_NODATA, SMFIP_SKIP, SMFIP_NR_CONN, SMFIP_NR_MAIL,
        SMFIP_NR_RCPT, SMFIP_NR_EOH], protoWord 5 &&& f ≠ 0) :=
  c6_option_negotiation_reply 5 cfAccept initConn [] (by decide)

/-- C7: (1) the reply to every `E` frame leaves the envelope accumulator
at its default empty state (prior sender/recipients/macros/id/buffer are
gone) while connect-scope macros survive; (2) an `A` (abort) frame does
the same; (3) consequently, after any envelope activity `env1` (frames
that touch only the envelope accumulator) an abort erases it completely:
the rest of the connection behaves exactly as a connection in the fresh
per-envelope state (same connect macros, default accumulator) would on
the same subsequent frames. -/
theorem c7_envelope_reset :
    (∀ (t : Nat) (cf : MailInfoStorage → ClassifyResult) (s : ConnState)
        (p : List Nat), p.length < 69632 →
        processFrame t cf s (69 :: p) =
          .ok ⟨s.connect_macros, defaultStorage⟩
            (verdictFrames (cf (storageAtE s)) ++ [.flush])) ∧
    (∀ (t : Nat) (cf : MailInfoStorage → ClassifyResult) (s : ConnState)
        (p : List Nat), p.length < 69632 →
        processFrame t cf s (65 :: p) =
          .ok ⟨s.connect_macros, defaultStorage⟩ []) ∧
    (∀ (t : Nat) (cf : MailInfoStorage → ClassifyResult) (s : ConnState)
        (env1 env2 : List (List Nat)) (s₁ : ConnState)
        (out1 : List OutEvent),
        (∀ f ∈ env1, isEnvelopeFrame f = true) →
        run t cf s env1 = .running s₁ out1 →
        run t cf s (env1 ++ [65] :: env2) =
          prependOut out1 (run t cf ⟨s.connect_macros, defaultStorage⟩ env2)) := by
  refine ⟨?_, ?_, ?_⟩
  · intro t cf s p h
    rw [processFrame_E t cf s p h]
    rfl
  · intro t cf s p h
    rw [processFrame_A t cf s p h]
    rfl
  · intro t cf s env1
    induction env1 generalizing s with
    | nil =>
      intro env2 s₁ out1 henv hrun
      simp only [run] at hrun
      cases hrun
      simp only [List.nil_append]
      rw [prependOut_nil]
      simp only [run]
      rw [show processFrame t cf s [65] =
          .ok ⟨s.connect_macros, defaultStorage⟩ [] by
        rw [processFrame_A t cf s [] (by decide)]; rfl]
      show prependOut [] (run t cf ⟨s.connect_macros, defaultStorage⟩ env2) = _
      rw [prependOut_nil]
    | cons f rest ih =>
      intro env2 s₁ out1 henv hrun
      simp only [run] at hrun
      cases hpf : processFrame t cf s f with
      | ok sa oa =>
        rw [hpf] at hrun
        have hrun2 : prependOut oa (run t cf sa rest) = .running s₁ out1 := hrun
        cases hrr : run t cf sa rest with
        | running sb ob =>
          rw [hrr] at hrun2
          simp only [prependOut] at hrun2
          cases hrun2
          have hconn : sa.connect_macros = s.connect_macros :=
            envFrame_preserves_connect t cf s sa f oa
              (henv f (List.mem_cons_self f rest)) hpf
          have ihh := ih sa env2 s₁ ob
            (fun g hg => henv g (List.mem_cons_of_mem f hg)) hrr
          simp only [List.cons_append, run]
          rw [hpf]
          show prependOut oa (run t cf sa (rest ++ [65] :: env2)) = _
          rw [ihh, hconn, prependOut_prependOut]
        | finished o =>
          rw [hrr] at hrun2
          simp [prependOut] at hrun2
        | errored m o =>
          rw [hrr] at hrun2
          simp [prependOut] at hrun2
        | panicked m o =>
          rw [hrr] at hrun2
          simp [prependOut] at hrun2
      | quit o =>
        rw [hpf] at hrun
        simp at hrun
      | connErr m =>
        rw [hpf] at hrun
        simp at hrun
      | panic m =>
        rw [hpf] at hrun
        simp at hrun

/-- Witness for C7: the three parts evaluated on `c7State` — the `E` and
`A` resets, and the abort replay with `env1 = [M "a"]`,
`env2 = [M "b"]`. -/
theorem c7_envelope_reset_witness :
    processFrame 8 cfAccept c7State (69 :: []) =
      .ok ⟨c7State.connect_macros, defaultStorage⟩
        (verdictFrames (cfAccept (storageAtE c7State)) ++ [.flush]) ∧
    processFrame 8 cfAccept c7State (65 :: []) =
      .ok ⟨c7State.connect_macros, defaultStorage⟩ [] ∧
    run 8 cfAccept c7State ([[77, 97, 0]] ++ [65] :: [[77, 98, 0]]) =
      prependOut []
        (run 8 cfAccept ⟨c7State.connect_macros, defaultStorage⟩
          [[77, 98, 0]]) :=
  ⟨c7_envelope_reset.1 8 cfAccept c7State [] (by decide),
   c7_envelope_reset.2.1 8 cfAccept c7State [] (by decide),
   c7_envelope_reset.2.2 8 cfAccept c7State [[77, 97, 0]] [[77, 98, 0]]
     c7StateAfterM [] (by decide) (by decide)⟩

/-- C9: classification is fail-open.  With no classifier configured the
verdict is Accept and the log notes "no classifier configured"; with a
classifier configured but the message bytes failing to parse, the
verdict is Accept and the log notes the parse failure.  An Accept
verdict is encoded for the MTA as the single `a` reply frame. -/
theorem c9_classify_fail_open :
    (∀ {Msg : Type} (parse : List Nat → Option Msg) (st : MailInfoStorage),
        classify_mail parse none st =
          (.Accept, [st.id ++ asc ": ACCEPT (no classifier configured)"])) ∧
    (∀ {Msg : Type} (parse : List Nat → Option Msg)
        (cl : Msg → MailInfoStorage → ClassifyResult) (st : MailInfoStorage),
        parse st.mail_buffer = none →
        classify_mail parse (some cl) st =
          (.Accept,
           [st.id ++ asc ": ACCEPT (because of failure to parse message)"])) ∧
    verdictFrames .Accept = [.frame (mkFrame [97])] := by
  refine ⟨fun parse st => rfl, fun parse cl st h => ?_, rfl⟩
  simp only [classify_mail, h]

/-- Witness for C9: both fail-open paths evaluated with a trivial parse
function that always fails and a classifier that would reject. -/
theorem c9_classify_fail_open_witness :
    classify_mail (fun _ => (none : Option Unit)) none defaultStorage =
      (.Accept,
       [defaultStorage.id ++ asc ": ACCEPT (no classifier configured)"]) ∧
    classify_mail (fun _ => (none : Option Unit))
        (some fun _ _ => ClassifyResult.Reject) defaultStorage =
      (.Accept,
       [defaultStorage.id ++
         asc ": ACCEPT (because of failure to parse message)"]) :=
  ⟨c9_classify_fail_open.1 (fun _ => none) defaultStorage,
   c9_classify_fail_open.2.1 (fun _ => none) (fun _ _ => ClassifyResult.Reject)
     defaultStorage rfl⟩

/-- C10: the reply at `E` is determined by the verdict: Quarantine
produces exactly two frames written back-to-back and flushed together —
a `q` frame whose body is the NUL-terminated literal "milter", then an
`a` frame — while Accept and Reject produce the single frame `a`
resp. `r` followed by the flush. -/
theorem c10_verdict_reply_frames :
    (∀ (t : Nat) (cf : MailInfoStorage → ClassifyResult) (s : ConnState)
        (p : List Nat), p.length < 69632 →
        processFrame t cf s (69 :: p) =
          .ok ⟨s.connect_macros, defaultStorage⟩
            (verdictFrames (cf (storageAtE s)) ++ [.flush])) ∧
    verdictFrames .Quarantine =
      [.frame (mkFrame ([113] ++ asc "milter" ++ [0])),
       .frame (mkFrame [97])] ∧
    verdictFrames .Accept = [.frame (mkFrame [97])] ∧
    verdictFrames .Reject = [.frame (mkFrame [114])] := by
  refine ⟨?_, by decide, rfl, rfl⟩
  intro t cf s p h
  rw [processFrame_E t cf s p h]
  rfl

/-- Witness for C10: the `E` reply evaluated with a classifier that
always returns Quarantine, on a fresh connection state. -/
theorem c10_verdict_reply_frames_witness :
    processFrame 8 (fun _ => ClassifyResult.Quarantine) initConn (69 :: []) =
      .ok ⟨initConn.connect_macros, defaultStorage⟩
        (verdictFrames ((fun _ => ClassifyResult.Quarantine)
          (storageAtE initConn)) ++ [.flush]) :=
  c10_verdict_reply_frames.1 8 (fun _ => ClassifyResult.Quarantine) initConn []
    (by decide)

end Srmilter
